import Mathlib

/-!
# Business-plan line-construction and simulation engine: a verification development

This file gives a shallow embedding of the core of `business_plans/bp.py`:
the `BPAccessor.line` method (line construction over a strictly increasing
index, with history prefix, optional simulator window, and per-line metadata
registration), its metadata accessors `history_size` / `max_history_lag`, and
the simulator factory functions `percent_of`, `actualise`,
`actualise_and_cumulate` and `from_list`.

Modelling conventions:

* Index keys are modelled as `Int` (years in all repository uses); Python
  truthiness of an optional key (`simulate_from or ...`) is therefore
  `None`-or-`0` falsy.
* Numeric values (`float64` in the source) are modelled as exact rationals
  `ℚ`; the algorithms are pure rational arithmetic.
* `pandas.Series` values aligned to the table's index are modelled as
  `List ℚ` (position `i` holds the value at index key `i`); source series
  passed to simulators are aligned to the table index, as in every
  repository use.
* `timedelta` values are modelled by their number of days (`Int`).
* Python exceptions are modelled by an error type; the table state is
  threaded explicitly, and an error carries the state as it stood when the
  exception was raised.
-/

deriving instance DecidableEq for Except

namespace BPlan

/-- Index keys of a business plan (years, periods, ...). -/
abbrev Key := Int

/-- Errors raised by the embedded core, one constructor per `raise` site of
`bp.py` (`ValueError` / `KeyError` / `IndexError` instances are told apart by
their message). -/
inductive BPError where
  /-- `line`: "Argument 'history' provides ... values, max ... expected". -/
  | historyTooLong
  /-- `line` / `Index.get_loc`: `KeyError(k)`. -/
  | keyError (k : Key)
  /-- `line`: "Start of simulation ... should be <= end of simulation". -/
  | startAfterEnd
  /-- `line`: "Simulator returned a list with ... elements, expected ...". -/
  | simulatorLengthMismatch
  /-- `IndexError` from a positional access `index[i]` out of bounds. -/
  | indexError
  /-- `actualise`: "Invalid start index". -/
  | invalidStartIndex
  /-- `actualise`: "Cannot specify 'reference' and default 'value'". -/
  | referenceWithoutValue
  /-- `from_list`: "start (...) should be <= start_index (...)". -/
  | startAfterStartIndex
  /-- `from_list`: "Not enough elements in values". -/
  | notEnoughValues
  deriving DecidableEq

/-- State owned by a business-plan DataFrame together with its `bp` accessor:
the (immutable) index, the map of named lines (`self._df` columns), and the
metadata maps `self._history_size` and `self._max_history_lag`.
Maps are association lists with Python-`dict` update semantics. -/
structure BPState where
  index : List Key
  lines : List (String × List ℚ)
  historySizeMap : List (String × Nat)
  maxHistoryLagMap : List (String × Int)
  deriving DecidableEq

/-- Python `dict` assignment `d[k] = v`: update the value in place if the key
is present, append otherwise. -/
def alistInsert {α : Type} (l : List (String × α)) (k : String) (v : α) :
    List (String × α) :=
  match l with
  | [] => [(k, v)]
  | (k2, v2) :: rest =>
    if k2 = k then (k, v) :: rest else (k2, v2) :: alistInsert rest k v

/-- Positional access `index[i]` for `i ≥ 0`; raises `IndexError` when out of
bounds. -/
def indexGet (index : List Key) (i : Nat) : Except BPError Key :=
  match index.get? i with
  | some k => .ok k
  | none => .error .indexError

/-- Positional access `index[-1]`; raises `IndexError` on an empty index. -/
def indexGetLast (index : List Key) : Except BPError Key :=
  match index.getLast? with
  | some k => .ok k
  | none => .error .indexError

/-- Python `a or b` for an optional key `a`: `None` and the key `0` are
falsy, any other key is truthy. -/
def pyOrKey (a : Option Key) (b : Except BPError Key) : Except BPError Key :=
  match a with
  | some k => if k ≠ 0 then .ok k else b
  | none => b

/-- `bp.py` line 531: `start_index = simulate_from or index[history_size]`. -/
def computeStart (index : List Key) (simulate_from : Option Key)
    (history_size : Nat) : Except BPError Key :=
  pyOrKey simulate_from (indexGet index history_size)

/-- `bp.py` line 534: `end_index = simulate_until or index[-1]`. -/
def computeEnd (index : List Key) (simulate_until : Option Key) :
    Except BPError Key :=
  pyOrKey simulate_until (indexGetLast index)

/-- First position of a key in the index (`Index.get_loc` for a key known to
be present; the index is strictly increasing, hence unique). -/
def findIdxOf (index : List Key) (k : Key) : Nat :=
  index.findIdx (fun x => x == k)

/-- `Index.get_loc(k)`: position of `k`, raising `KeyError` when absent. -/
def getLoc (index : List Key) (k : Key) : Except BPError Nat :=
  if k ∈ index then .ok (findIdxOf index k) else .error (.keyError k)

/-- Value of a series at a (possibly negative or overflowing) integer
position, with a fill value outside the range — the combination
`s.shift(n, fill_value=fill)` evaluated at one position. -/
def seriesGetD (s : List ℚ) (i : Int) (fill : ℚ) : ℚ :=
  if 0 ≤ i then (s.get? i.toNat).getD fill else fill

/-- Type of the `simulation` argument of `line`: receives the DataFrame
state, the series built so far, the window's index values, its bounding keys
and their positions, and returns the simulated values (or raises). -/
abbrev Simulator :=
  BPState → List ℚ → List Key → Key → Key → Nat → Nat → Except BPError (List ℚ)

/-- `bp.py` lines 520-529: allocate the line at `default_value` and copy the
`history` prefix, computing `history_size`; raises `historyTooLong` when the
history is longer than the index. An error carries the (unchanged) state. -/
def histStep (st : BPState) (default_value : ℚ) (history : Option (List ℚ)) :
    Except (BPError × BPState) (List ℚ × Nat) :=
  let line0 := List.replicate st.index.length default_value
  match history with
  | none => .ok (line0, 0)
  | some h =>
    if h.length = 0 then .ok (line0, 0)
    else if st.index.length < h.length then .error (.historyTooLong, st)
    else .ok (h ++ line0.drop h.length, h.length)

/-- `bp.py` lines 530-549: resolve the simulation window's bounds, validate
them, call the simulator and splice its result into the line. An error
carries the (unchanged) state. -/
def simStep (st : BPState) (line1 : List ℚ) (history_size : Nat)
    (sim : Simulator) (simulate_from simulate_until : Option Key) :
    Except (BPError × BPState) (List ℚ) :=
  match computeStart st.index simulate_from history_size with
  | .error e => .error (e, st)
  | .ok start_index =>
    if start_index ∉ st.index then .error (.keyError start_index, st) else
    match computeEnd st.index simulate_until with
    | .error e => .error (e, st)
    | .ok end_index =>
      if end_index ∉ st.index then .error (.keyError end_index, st) else
      if ¬ start_index ≤ end_index then .error (.startAfterEnd, st) else
      let start_loc := findIdxOf st.index start_index
      let end_loc := findIdxOf st.index end_index
      let index_values := (st.index.drop start_loc).take (end_loc + 1 - start_loc)
      match sim st line1 index_values start_index end_index start_loc end_loc with
      | .error e => .error (e, st)
      | .ok result =>
        if result.length ≠ index_values.length then
          .error (.simulatorLengthMismatch, st)
        else .ok (line1.take start_loc ++ result ++ line1.drop (end_loc + 1))

/-- `BPAccessor.line` (`bp.py` lines 520-554): build a new line from the
default value, the optional history prefix and the optional simulator; when
`name` is non-empty, register the line and its metadata in the table.
Returns the line together with the updated state; an error carries the state
as it stood when the exception was raised. -/
def line (st : BPState) (name : String) (default_value : ℚ)
    (history : Option (List ℚ)) (simulation : Option Simulator)
    (simulate_from simulate_until : Option Key) (max_history_lag : Int) :
    Except (BPError × BPState) (List ℚ × BPState) :=
  match histStep st default_value history with
  | .error es => .error es
  | .ok (line1, history_size) =>
    match (match simulation with
           | none => Except.ok line1
           | some sim =>
             simStep st line1 history_size sim simulate_from simulate_until) with
    | .error es => .error es
    | .ok line2 =>
      .ok (line2,
        if name ≠ "" then
          { st with
            lines := alistInsert st.lines name line2,
            historySizeMap := alistInsert st.historySizeMap name history_size,
            maxHistoryLagMap := alistInsert st.maxHistoryLagMap name max_history_lag }
        else st)

/-- `BPAccessor.history_size` (`bp.py` lines 556-575):
`self._history_size.get(name, 0)`. -/
def history_size (st : BPState) (name : String) : Nat :=
  (st.historySizeMap.lookup name).getD 0

/-- `BPAccessor.max_history_lag` (`bp.py` lines 577-599):
`self._max_history_lag.get(name, timedelta(days=365))`, in days. -/
def max_history_lag (st : BPState) (name : String) : Int :=
  (st.maxHistoryLagMap.lookup name).getD 365

/-- `percent_of` (`bp.py` lines 702-743): simulator returning
`s2.shift(-shift, fill_value=0).loc[start_index:end_index] * percent`,
`s2` being aligned to the table index so that the label slice selects
positions `start_loc .. end_loc`. -/
def percent_of (s2 : List ℚ) (percent : ℚ) (shift : Int) : Simulator :=
  fun _df _s1 _index_values _start_index _end_index start_loc end_loc =>
    .ok ((List.range' start_loc (end_loc + 1 - start_loc)).map
      (fun p : Nat => seriesGetD s2 ((p : Int) + shift) 0 * percent))

/-- The `else` part of `if reference:` in `actualise` (`bp.py` lines
821-826): `if value:` (Python truthiness, `None` and `0` falsy) anchors at
`start_loc`, otherwise at `start_loc - 1` after checking `start_loc` is not
the first position. -/
def actualiseFallback (value : Option ℚ) (start_loc : Nat) :
    Except BPError Int :=
  if (match value with | some v => v ≠ 0 | none => false : Bool) then
    Except.ok (start_loc : Int)
  else if start_loc = 0 then Except.error BPError.invalidStartIndex
  else Except.ok ((start_loc : Int) - 1)

/-- `actualise` (`bp.py` lines 746-830): compound a value by
`(1 + percent)` per period against a reference position. Mirrors the source's
two steps: first resolve `_value` (`if value is None: ...`), then resolve
`_reference` (`if reference: ... elif value: ... else: ...`, with Python
truthiness: `None` and `0` are falsy). -/
def actualise (percent : ℚ) (value : Option ℚ) (reference : Option Key) :
    Simulator :=
  fun df s _index_values _start_index _end_index start_loc end_loc =>
    match (match value with
           | none =>
             match reference with
             | some _ => Except.error BPError.referenceWithoutValue
             | none =>
               if start_loc = 0 then Except.error BPError.invalidStartIndex
               else Except.ok (seriesGetD s ((start_loc : Int) - 1) 0)
           | some v => Except.ok v) with
    | .error e => .error e
    | .ok _value =>
      match (match reference with
             | some r =>
               if r ≠ 0 then
                 match getLoc df.index r with
                 | .error e => Except.error e
                 | .ok n => Except.ok (n : Int)
               else actualiseFallback value start_loc
             | none => actualiseFallback value start_loc) with
      | .error e => .error e
      | .ok _reference =>
        .ok ((List.range' start_loc (end_loc + 1 - start_loc)).map
          (fun i : Nat => _value * (1 + percent) ^ ((i : Int) - _reference)))

/-- The running-accumulator loop of `actualise_and_cumulate`: starting from
`acc`, each addend `v` yields and emits `(acc + v) * (1 + percent)`. -/
def cumFold (percent : ℚ) (acc : ℚ) : List ℚ → List ℚ
  | [] => []
  | v :: vs =>
    ((acc + v) * (1 + percent)) :: cumFold percent ((acc + v) * (1 + percent)) vs

/-- `actualise_and_cumulate` (`bp.py` lines 833-874): seed the accumulator
with `s1.shift(1, fill_value=0).loc[start_index]` and fold the addends
`s2.shift(1, fill_value=0).loc[start_index:end_index]` through
`cumulated = (cumulated + value) * (1 + percent)`; `s1` and `s2` are aligned
to the table index. -/
def actualise_and_cumulate (s2 : List ℚ) (percent : ℚ) : Simulator :=
  fun _df s1 _index_values _start_index _end_index start_loc end_loc =>
    let cumulated := seriesGetD s1 ((start_loc : Int) - 1) 0
    let addends := (List.range' start_loc (end_loc + 1 - start_loc)).map
      (fun p : Nat => seriesGetD s2 ((p : Int) - 1) 0)
    .ok (cumFold percent cumulated addends)

/-- `from_list` (`bp.py` lines 877-923): replay a list of values aligned at
`start or s1.index[0]` (Python truthiness); raises when the window starts
before the anchor or when the list has too few elements, else returns
`values[start_loc - values_start_loc : start_loc - values_start_loc + length]`
with `length = end_loc - start_loc + 1`. -/
def from_list (values : List ℚ) (start : Option Key) : Simulator :=
  fun df _s1 _index_values _start_index _end_index start_loc end_loc =>
    match pyOrKey start (indexGet df.index 0) with
    | .error e => .error e
    | .ok values_start =>
      match getLoc df.index values_start with
      | .error e => .error e
      | .ok values_start_loc =>
        if ¬ values_start_loc ≤ start_loc then .error .startAfterStartIndex
        else
          let length : Int := (end_loc : Int) - (start_loc : Int) + 1
          if ¬ ((start_loc : Int) - (values_start_loc : Int) + length
                  ≤ (values.length : Int)) then .error .notEnoughValues
          else .ok ((values.drop (start_loc - values_start_loc)).take length.toNat)

/-! ## Helper lemmas -/

theorem lookup_alistInsert {α : Type} (l : List (String × α)) (k : String) (v : α) :
    List.lookup k (alistInsert l k v) = some v := by
  induction l with
  | nil => simp [alistInsert, List.lookup]
  | cons p rest ih =>
    obtain ⟨k2, v2⟩ := p
    by_cases hk : k2 = k
    · subst hk; simp [alistInsert, List.lookup]
    · have hbeq : (k == k2) = false := beq_eq_false_iff_ne.mpr (Ne.symm hk)
      simp only [alistInsert, if_neg hk, List.lookup, hbeq]
      exact ih

theorem histStep_error_state (st : BPState) (dv : ℚ) (history : Option (List ℚ))
    (e : BPError) (s2 : BPState)
    (h : histStep st dv history = .error (e, s2)) : s2 = st := by
  unfold histStep at h
  simp only [] at h
  split at h
  · simp at h
  · split at h
    · simp at h
    · split at h
      · exact congrArg Prod.snd (Except.error.inj h) |>.symm
      · simp at h

theorem simStep_error_state (st : BPState) (l1 : List ℚ) (hs : Nat)
    (sim : Simulator) (f u : Option Key) (e : BPError) (s2 : BPState)
    (h : simStep st l1 hs sim f u = .error (e, s2)) : s2 = st := by
  unfold simStep at h
  simp only [] at h
  split at h
  · exact congrArg Prod.snd (Except.error.inj h) |>.symm
  · split at h
    · exact congrArg Prod.snd (Except.error.inj h) |>.symm
    · split at h
      · exact congrArg Prod.snd (Except.error.inj h) |>.symm
      · split at h
        · exact congrArg Prod.snd (Except.error.inj h) |>.symm
        · split at h
          · exact congrArg Prod.snd (Except.error.inj h) |>.symm
          · split at h
            · exact congrArg Prod.snd (Except.error.inj h) |>.symm
            · split at h
              · exact congrArg Prod.snd (Except.error.inj h) |>.symm
              · simp at h

theorem histStep_ok_of_le (st : BPState) (dv : ℚ) (h : List ℚ)
    (hle : h.length ≤ st.index.length) :
    histStep st dv (some h)
      = .ok (h ++ (List.replicate st.index.length dv).drop h.length, h.length) := by
  unfold histStep
  simp only []
  by_cases h0 : h.length = 0
  · have hnil : h = [] := List.eq_nil_of_length_eq_zero h0
    subst hnil; simp
  · rw [if_neg h0, if_neg (by omega)]

theorem histStep_too_long (st : BPState) (dv : ℚ) (h : List ℚ)
    (hgt : st.index.length < h.length) :
    histStep st dv (some h) = .error (.historyTooLong, st) := by
  unfold histStep
  simp only []
  rw [if_neg (by omega), if_pos hgt]

theorem computeStart_none_oob (index : List Key) (hs : Nat)
    (hge : index.length ≤ hs) :
    computeStart index none hs = .error .indexError := by
  simp [computeStart, pyOrKey, indexGet, List.get?_eq_getElem?,
    List.getElem?_eq_none hge]

theorem simStep_start_error (st : BPState) (l1 : List ℚ) (hs : Nat)
    (sim : Simulator) (f u : Option Key) (e : BPError)
    (hc : computeStart st.index f hs = .error e) :
    simStep st l1 hs sim f u = .error (e, st) := by
  unfold simStep
  rw [hc]

theorem computeStart_zero (index : List Key) (hs : Nat) :
    computeStart index (some 0) hs = computeStart index none hs := by
  simp [computeStart, pyOrKey]

theorem computeEnd_zero (index : List Key) :
    computeEnd index (some 0) = computeEnd index none := by
  simp [computeEnd, pyOrKey]

theorem simStep_from_zero (st : BPState) (l1 : List ℚ) (hs : Nat)
    (sim : Simulator) (u : Option Key) :
    simStep st l1 hs sim (some 0) u = simStep st l1 hs sim none u := by
  unfold simStep
  simp only [computeStart_zero]

theorem simStep_until_zero (st : BPState) (l1 : List ℚ) (hs : Nat)
    (sim : Simulator) (f : Option Key) :
    simStep st l1 hs sim f (some 0) = simStep st l1 hs sim f none := by
  unfold simStep
  simp only [computeEnd_zero]

/-! ## Concrete tables and simulators used in witnesses and counterexamples -/

/-- A two-period table (index `[2020, 2021]`) with no lines registered. -/
def exampleSt2 : BPState := ⟨[2020, 2021], [], [], []⟩

/-- A four-period table (index `[2020, ..., 2023]`) with no lines. -/
def exampleSt4 : BPState := ⟨[2020, 2021, 2022, 2023], [], [], []⟩

/-- A six-period table (index `[2020, ..., 2025]`) with no lines. -/
def exampleSt6 : BPState := ⟨[2020, 2021, 2022, 2023, 2024, 2025], [], [], []⟩

/-- A four-period table starting at 2022 (index `[2022, ..., 2025]`). -/
def exampleStW : BPState := ⟨[2022, 2023, 2024, 2025], [], [], []⟩

/-- A trivial simulator: fills its window with zeros. -/
def zeroSim : Simulator := fun _ _ index_values _ _ _ _ =>
  .ok (index_values.map (fun _ => 0))

/-! ## Claim theorems -/

/-- Claim C2: `line()` is atomic on failure — every raising path returns the
table state exactly as it was before the call (line map, `history_size` map
and `max_history_lag` map unchanged); no partial or invalid line is ever
registered. -/
theorem line_error_atomic (st : BPState) (name : String) (dv : ℚ)
    (history : Option (List ℚ)) (simulation : Option Simulator)
    (f u : Option Key) (lag : Int) (e : BPError) (s2 : BPState)
    (h : line st name dv history simulation f u lag = .error (e, s2)) :
    s2 = st := by
  unfold line at h
  split at h
  case h_1 es heq =>
    cases Except.error.inj h
    exact histStep_error_state st dv history e s2 heq
  case h_2 l1 hs heq =>
    split at h
    case h_1 es heq2 =>
      cases Except.error.inj h
      cases simulation with
      | none => simp at heq2
      | some sim => exact simStep_error_state st l1 hs sim f u e s2 heq2
    case h_2 l2 heq2 => simp at h

/-- Claim C2 witness: a failing call (history longer than the index) returns
the untouched initial state. -/
theorem line_error_atomic_witness :
    line exampleSt2 "L" 0 (some [1, 1, 1]) none none none 365
        = .error (.historyTooLong, exampleSt2)
      ∧ exampleSt2 = exampleSt2 :=
  ⟨by decide,
   line_error_atomic exampleSt2 "L" 0 (some [1, 1, 1]) none none none 365
     .historyTooLong exampleSt2 (by decide)⟩

/-- Claim C1 (amended): with a simulator and `simulate_from` omitted, the
window's start key is `Index[history_size]` whenever
`history_size < len(Index)`; but when the history fills the whole index the
call FAILS with an index-out-of-range error (`index[history_size]` is out of
bounds) — it does not fall back to `Index[0]`. -/
theorem line_default_start_key (st : BPState) (name : String) (dv : ℚ)
    (h : List ℚ) (sim : Simulator) (u : Option Key) (lag : Int) :
    (h.length = st.index.length →
      line st name dv (some h) (some sim) none u lag
        = .error (.indexError, st))
    ∧ (h.length < st.index.length →
      computeStart st.index none h.length = .ok (st.index.getD h.length 0)) := by
  constructor
  · intro hlen
    have h1 := histStep_ok_of_le st dv h (le_of_eq hlen)
    have h2 := simStep_start_error st
      (h ++ (List.replicate st.index.length dv).drop h.length) h.length sim none u
      .indexError (computeStart_none_oob st.index h.length (le_of_eq hlen.symm))
    simp only [line, h1, h2]
  · intro hlt
    have hg : st.index[h.length]? = some (st.index.getD h.length 0) := by
      rw [List.getD_eq_getElem?_getD]
      cases hq : st.index[h.length]? with
      | none => rw [List.getElem?_eq_none_iff] at hq; omega
      | some v => rfl
    simp only [computeStart, pyOrKey, indexGet]
    rw [List.get?_eq_getElem?, hg]

/-- Claim C1 witness: over index `[2020, 2021]`, a one-element history makes
the default simulation start `Index[1] = 2021`; a full two-element history
makes the same call fail with `indexError`. -/
theorem line_default_start_key_witness :
    line exampleSt2 "L" 0 (some [1, 2]) (some zeroSim) none none 365
        = .error (.indexError, exampleSt2)
      ∧ computeStart exampleSt2.index none 1 = .ok 2021 :=
  ⟨(line_default_start_key exampleSt2 "L" 0 [1, 2] zeroSim none 365).1 (by decide),
   ((line_default_start_key exampleSt2 "L" 0 [9] zeroSim none 365).2
      (by decide)).trans (by decide)⟩

/-- Claim C1 counterexample: the claim as stated asserts that over a table
whose history fills the whole index, a simulator-bearing `line()` call with
`simulate_from` omitted starts at the first index key "rather than failing";
at this concrete input the call fails with an index error instead. -/
theorem line_full_history_fails_cex :
    line exampleSt2 "L" 0 (some [1, 2]) (some zeroSim) none none 365
      = .error (.indexError, exampleSt2) := by decide

/-- Claim C8: for every history of length at most the index length, `line()`
places `history[i]` at position `i` (the remaining positions stay at
`default_value` in a simulator-free call), and `history_size` of a non-empty
registered name equals `len(history)`; any history longer than the index
always fails with `HistoryTooLong`. -/
theorem line_history_placement (st : BPState) (name : String) (dv : ℚ)
    (h : List ℚ) (f u : Option Key) (lag : Int) :
    (h.length ≤ st.index.length →
      ∃ st2, line st name dv (some h) none f u lag
          = .ok (h ++ List.replicate (st.index.length - h.length) dv, st2)
        ∧ (name ≠ "" → history_size st2 name = h.length))
    ∧ (∀ sim : Option Simulator, st.index.length < h.length →
        line st name dv (some h) sim f u lag
          = .error (.historyTooLong, st)) := by
  constructor
  · intro hle
    have h1 := histStep_ok_of_le st dv h hle
    refine ⟨if name ≠ "" then
        { st with
          lines := alistInsert st.lines name
            (h ++ List.replicate (st.index.length - h.length) dv),
          historySizeMap := alistInsert st.historySizeMap name h.length,
          maxHistoryLagMap := alistInsert st.maxHistoryLagMap name lag }
      else st, ?_, ?_⟩
    · simp only [line, h1, List.drop_replicate]
    · intro hn
      rw [if_pos hn]
      simp [history_size, lookup_alistInsert]
  · intro sim hgt
    have h1 := histStep_too_long st dv h hgt
    cases sim with
    | none => simp only [line, h1]
    | some s => simp only [line, h1]

/-- Claim C8 witness: history `[1, 2, 3, 4]` over a six-period table is
placed verbatim, the rest stays at the default 7, and `history_size` is 4;
a seven-element history fails with `HistoryTooLong`. -/
theorem line_history_placement_witness :
    (∃ st2, line exampleSt6 "N" 7 (some [1, 2, 3, 4]) none none none 365
        = .ok ([1, 2, 3, 4] ++ List.replicate 2 7, st2)
      ∧ ("N" ≠ "" → history_size st2 "N" = 4))
    ∧ line exampleSt6 "N" 7 (some [1, 1, 1, 1, 1, 1, 1]) none none none 365
        = .error (.historyTooLong, exampleSt6) :=
  ⟨(line_history_placement exampleSt6 "N" 7 [1, 2, 3, 4] none none 365).1
     (by decide),
   (line_history_placement exampleSt6 "N" 7 [1, 1, 1, 1, 1, 1, 1] none none 365).2
     none (by decide)⟩

/-- Claim C9: `line()` combines its window bounds with Python `or`, so a
falsy bound — the integer key `0` — is treated exactly as an omitted bound:
passing `simulate_from = 0` (resp. `simulate_until = 0`) yields the very same
result as omitting it, the default (`index[history_size]`, resp. the last
index key) being silently substituted. -/
theorem line_falsy_bounds (st : BPState) (name : String) (dv : ℚ)
    (history : Option (List ℚ)) (sim : Simulator) (f u : Option Key)
    (lag : Int) :
    (line st name dv history (some sim) (some 0) u lag
      = line st name dv history (some sim) none u lag)
    ∧ (line st name dv history (some sim) f (some 0) lag
      = line st name dv history (some sim) f none lag) := by
  constructor
  · unfold line
    simp only [simStep_from_zero]
  · unfold line
    simp only [simStep_until_zero]

/-- Claim C10: the metadata accessors are total with defaults — for a name
absent from the metadata maps (never registered by `line()`),
`history_size` returns `0` and `max_history_lag` returns 365 days; being
plain `dict.get` calls with defaults, neither can raise. -/
theorem accessors_total_defaults (st : BPState) (name : String) :
    (List.lookup name st.historySizeMap = none → history_size st name = 0)
    ∧ (List.lookup name st.maxHistoryLagMap = none
        → max_history_lag st name = 365) := by
  constructor
  · intro h; simp [history_size, h]
  · intro h; simp [max_history_lag, h]

/-- Claim C10 witness: on a fresh table, both accessors return their
defaults for an unregistered name. -/
theorem accessors_total_defaults_witness :
    history_size exampleSt2 "Revenue" = 0
      ∧ max_history_lag exampleSt2 "Revenue" = 365 :=
  ⟨(accessors_total_defaults exampleSt2 "Revenue").1 (by decide),
   (accessors_total_defaults exampleSt2 "Revenue").2 (by decide)⟩

/-- Claim C3 (failing input): `actualise(percent=1/100, value=0)` with
`reference` omitted, invoked on a window starting at position 0, raises
"Invalid start index" instead of anchoring the value 0 at the window start:
the source tests `if value:` (Python truthiness), so the anchor value 0 is
treated as if no value had been supplied. -/
theorem actualise_zero_value_raises :
    actualise (1/100) (some 0) none exampleSt2 [0, 0] exampleSt2.index
      2020 2021 0 1 = .error .invalidStartIndex := by rfl

/-- Claim C4: `actualise(percent=p)` with both `value` and `reference`
omitted raises when the window starts at position 0 (no preceding value),
and otherwise anchors on the series value immediately preceding the window:
position `i` gets `s[start_pos - 1] * (1+p)^(i - (start_pos - 1))`. -/
theorem actualise_default_anchor (p : ℚ) (st : BPState) (s : List ℚ)
    (iv : List Key) (si ei : Key) (sl el : Nat) :
    (sl = 0 → actualise p none none st s iv si ei sl el
        = .error .invalidStartIndex)
    ∧ (0 < sl → actualise p none none st s iv si ei sl el
        = .ok ((List.range' sl (el + 1 - sl)).map
            (fun i : Nat => seriesGetD s ((sl : Int) - 1) 0
              * (1 + p) ^ ((i : Int) - ((sl : Int) - 1))))) := by
  constructor
  · intro h0
    simp [actualise, h0]
  · intro hpos
    have hne : sl ≠ 0 := by omega
    simp [actualise, actualiseFallback, hne]

/-- Claim C4 witness: the spec's worked example — index `[2020..2025]`,
series `[100,200,300,400,500,600]`, window `2021..2025`, percent `1/100` —
yields exactly `[101, 102.01, 103.0301, 104.060401, 105.10100501]`. -/
theorem actualise_default_anchor_witness :
    0 < 1 ∧ actualise (1/100) none none exampleSt6
        [100, 200, 300, 400, 500, 600] exampleSt6.index 2021 2025 1 5
      = .ok [101, 10201/100, 1030301/10000, 104060401/1000000,
             10510100501/100000000] :=
  ⟨by decide,
   ((actualise_default_anchor (1/100) exampleSt6 [100, 200, 300, 400, 500, 600]
       exampleSt6.index 2021 2025 1 5).2 (by decide)).trans
     (by norm_num [List.range', seriesGetD, List.get?])⟩

/-- Claim C5 (amended): when the shifted window falls entirely outside the
source series, `percent_of` does NOT raise: every shifted position takes the
`fill_value` 0 and the simulator silently returns all zeros. -/
theorem percent_of_out_of_range_zeros (s2 : List ℚ) (p : ℚ) (shift : Int)
    (st : BPState) (s : List ℚ) (iv : List Key) (si ei : Key) (sl el : Nat)
    (hout : ∀ q : Nat, sl ≤ q → q ≤ el →
      (q : Int) + shift < 0 ∨ (s2.length : Int) ≤ (q : Int) + shift) :
    percent_of s2 p shift st s iv si ei sl el
      = .ok (List.replicate (el + 1 - sl) 0) := by
  unfold percent_of
  refine congrArg Except.ok ?_
  rw [List.eq_replicate_iff]
  refine ⟨by simp, ?_⟩
  intro b hb
  simp only [List.mem_map, List.mem_range'_1] at hb
  obtain ⟨q, ⟨hq1, hq2⟩, rfl⟩ := hb
  have hq3 : q ≤ el := by omega
  unfold seriesGetD
  rcases hout q hq1 hq3 with hneg | hover
  · rw [if_neg (by omega)]
    ring
  · rw [if_pos (by omega)]
    have hnone : s2.get? ((q : Int) + shift).toNat = none := by
      rw [List.get?_eq_getElem?]
      exact List.getElem?_eq_none (by omega)
    rw [hnone]
    simp

/-- Claim C5 witness: shift 4 pushes the whole 4-period window outside the
source `[100,200,300,400]`; the result is all zeros, with no error. -/
theorem percent_of_out_of_range_zeros_witness :
    percent_of [100, 200, 300, 400] (1/100) 4 exampleSt4 [0, 0, 0, 0]
        exampleSt4.index 2020 2023 0 3 = .ok (List.replicate 4 0) :=
  percent_of_out_of_range_zeros [100, 200, 300, 400] (1/100) 4 exampleSt4
    [0, 0, 0, 0] exampleSt4.index 2020 2023 0 3
    (by intro q h1 h2; right; norm_num)

/-- Claim C5 counterexample: at the concrete input of the witness — a window
shifted entirely outside the source — `percent_of` returns `[0,0,0,0]`
successfully; it does not fail with any error, contradicting the claim that
it fails with `InvalidRange` (and does not silently return all zeros). -/
theorem percent_of_silent_zeros_cex :
    percent_of [100, 200, 300, 400] (1/100) 4 exampleSt4 [0, 0, 0, 0]
      exampleSt4.index 2020 2023 0 3 = .ok [0, 0, 0, 0] := by
  norm_num [percent_of, List.range', seriesGetD, List.get?]

/-- Claim C6 (amended): `from_list` fails with `InvalidArguments` exactly
when the window's start position precedes the anchor `start_key`'s position
(`startAfterStartIndex`) or when `values` has too few elements to cover the
window (`notEnoughValues`); otherwise it returns the slice of `values`
aligned at the anchor. In particular a window STARTING AFTER the anchor
succeeds (the claim's concrete failing example is backwards). -/
theorem from_list_window_rule (values : List ℚ) (k : Key) (st : BPState)
    (s : List ℚ) (iv : List Key) (si ei : Key) (sl el vsl : Nat)
    (hk : k ≠ 0) (hloc : getLoc st.index k = .ok vsl) :
    (sl < vsl → from_list values (some k) st s iv si ei sl el
        = .error .startAfterStartIndex)
    ∧ (vsl ≤ sl →
        (values.length : Int)
            < (sl : Int) - (vsl : Int) + ((el : Int) - (sl : Int) + 1) →
        from_list values (some k) st s iv si ei sl el
          = .error .notEnoughValues)
    ∧ (vsl ≤ sl →
        (sl : Int) - (vsl : Int) + ((el : Int) - (sl : Int) + 1)
            ≤ (values.length : Int) →
        from_list values (some k) st s iv si ei sl el
          = .ok ((values.drop (sl - vsl)).take
              ((el : Int) - (sl : Int) + 1).toNat)) := by
  refine ⟨?_, ?_, ?_⟩
  · intro hlt
    unfold from_list
    simp only [pyOrKey, if_pos hk, hloc]
    rw [if_pos (by omega)]
  · intro hle hshort
    unfold from_list
    simp only [pyOrKey, if_pos hk, hloc]
    rw [if_neg (by omega), if_pos (by omega)]
  · intro hle hlong
    unfold from_list
    simp only [pyOrKey, if_pos hk, hloc]
    rw [if_neg (by omega), if_neg (by omega)]

/-- Claim C6 witness: over index `[2022..2025]`,
`from_list([0,1,2,3,4,5], start=2022)` on the full 4-key window starting at
2022 succeeds and returns `[0, 1, 2, 3]`. -/
theorem from_list_window_rule_witness :
    (2022 : Key) ≠ 0
      ∧ from_list [0, 1, 2, 3, 4, 5] (some 2022) exampleStW
          [0, 0, 0, 0] exampleStW.index 2022 2025 0 3 = .ok [0, 1, 2, 3] :=
  ⟨by decide,
   ((from_list_window_rule [0, 1, 2, 3, 4, 5] 2022 exampleStW [0, 0, 0, 0]
       exampleStW.index 2022 2025 0 3 0 (by decide) (by decide)).2.2
     (by decide) (by decide)).trans (by decide)⟩

/-- Claim C6 counterexample: the claim's concrete example —
`from_list([0,1,2,3,4,5], start_key=2022)` over a window starting at 2023
(index `[2020..2025]`, window `2023..2025`) — does NOT fail with
`InvalidArguments`: it succeeds and returns `[1, 2, 3]`, exactly as the
repository's own test expects. -/
theorem from_list_start_after_anchor_cex :
    from_list [0, 1, 2, 3, 4, 5] (some 2022) exampleSt6
      [100, 200, 300, 400, 500, 600] [2023, 2024, 2025] 2023 2025 3 5
      = .ok [1, 2, 3] := by rfl

/-- The running-accumulator recurrence exactly as the spec words it
(reference definition for `actualise_and_cumulate`): from the seed, step
`n+1` is `(previous accumulator + addend n) * (1 + percent)`. -/
def specAccum (percent : ℚ) (addend : Nat → ℚ) (seed : ℚ) : Nat → ℚ
  | 0 => seed
  | n + 1 => (specAccum percent addend seed n + addend n) * (1 + percent)

theorem specAccum_shift (p : ℚ) (a : Nat → ℚ) (acc : ℚ) :
    ∀ m : Nat, specAccum p (fun j => a (j + 1)) ((acc + a 0) * (1 + p)) m
      = specAccum p a acc (m + 1)
  | 0 => by simp [specAccum]
  | m + 1 => by
    simp only [specAccum, specAccum_shift p a acc m]

theorem cumFold_eq_specAccum (p : ℚ) (g : Nat → ℚ) :
    ∀ (n start : Nat) (acc : ℚ),
      cumFold p acc ((List.range' start n).map g)
        = (List.range n).map
            (fun k => specAccum p (fun j => g (start + j)) acc (k + 1)) := by
  intro n
  induction n with
  | zero => intro start acc; simp [cumFold]
  | succ n ih =>
    intro start acc
    rw [List.range'_succ, List.range_succ_eq_map]
    simp only [List.map_cons, cumFold, List.map_map]
    have hhead : (acc + g start) * (1 + p)
        = specAccum p (fun j => g (start + j)) acc (0 + 1) := by
      simp [specAccum]
    rw [ih (start + 1) ((acc + g start) * (1 + p)), hhead]
    refine congrArg₂ List.cons rfl ?_
    refine List.map_congr_left ?_
    intro m _
    show specAccum p (fun j => g (start + 1 + j))
        ((acc + g start) * (1 + p)) (m + 1)
      = specAccum p (fun j => g (start + j)) acc (m + 1 + 1)
    rw [← specAccum_shift p (fun j => g (start + j)) acc (m + 1)]
    have h1 : (fun j => g (start + 1 + j)) = (fun j => g (start + (j + 1))) := by
      funext j
      congr 1
      omega

    rw [h1]
    simp

/-- Claim C7: `actualise_and_cumulate(addend_series, percent)` is exactly
the spec's strictly sequential running accumulator: the seed is the target
series' value one position before the window start (0 if the window starts
at position 0), and output `k` is the accumulator after `k+1` steps of
`accumulator := (accumulator + addend[position - 1, or 0 before the
addend's first position]) * (1 + percent)` taken in increasing position
order. -/
theorem actualise_and_cumulate_sequential (s2 : List ℚ) (p : ℚ)
    (st : BPState) (s1 : List ℚ) (iv : List Key) (si ei : Key)
    (sl el : Nat) :
    actualise_and_cumulate s2 p st s1 iv si ei sl el
      = .ok ((List.range (el + 1 - sl)).map
          (fun k => specAccum p
            (fun j => seriesGetD s2 (((sl + j : Nat) : Int) - 1) 0)
            (seriesGetD s1 ((sl : Int) - 1) 0) (k + 1))) := by
  unfold actualise_and_cumulate
  simp only []
  rw [cumFold_eq_specAccum p (fun q => seriesGetD s2 ((q : Int) - 1) 0)
    (el + 1 - sl) sl (seriesGetD s1 ((sl : Int) - 1) 0)]

end BPlan
